import Mathlib

/-!
Verification of the flight-search dynamic-pricing service
(flight_search_api_fastapi.py) and of the booking service (app.py, models.py).

Conventions of the embedding:
- Python floats are modelled as rationals (ℚ); `round(x, 2)` is modelled by
  `round2` below (round to the nearest multiple of 1/100).  Mathlib `round`
  rounds half up while Python rounds half to even; the two differ only at
  exact half-cent ties, which none of the statements below touch.
- The one random draw inside `compute_dynamic_fare` (`random.uniform(-0.02, 0.03)`)
  is made an explicit `volatility` argument, as the spec demands it be injectable.
- SQL integer columns are modelled as ℤ, timestamps as rationals measured in
  hours, so that `(departure - utcnow).total_seconds() / 3600` becomes a
  subtraction of rationals.
-/

/-- Model of Python `round(x, 2)`: round to the nearest multiple of 1/100. -/
def round2 (x : ℚ) : ℚ := ((round (100 * x) : ℤ) : ℚ) / 100

/-- Scarcity surcharge added to the multiplier, from the `remaining_pct`
if-chain of `compute_dynamic_fare` (breakpoints 0.05 / 0.15 / 0.33 / 0.5). -/
def scarcity_component (remaining_pct : ℚ) : ℚ :=
  if remaining_pct < 1/20 then 1
  else if remaining_pct < 3/20 then 1/2
  else if remaining_pct < 33/100 then 1/4
  else if remaining_pct < 1/2 then 1/10
  else 0

/-- Urgency surcharge from the `time_until_departure_hours` if-chain
(breakpoints 2 / 12 / 48 hours). -/
def urgency_component (time_until_departure_hours : ℚ) : ℚ :=
  if time_until_departure_hours < 2 then 3/4
  else if time_until_departure_hours < 12 then 7/20
  else if time_until_departure_hours < 48 then 1/10
  else 0

/-- Demand surcharge: `max(0.0, min(1.0, demand_level / 100.0)) * 0.8`. -/
def demand_component (demand_level : ℤ) : ℚ :=
  max 0 (min 1 ((demand_level : ℚ) / 100)) * (4/5)

/-- The safety guard at the top of `compute_dynamic_fare`:
`if seats_total <= 0: seats_total = 1`. -/
def guarded_seats_total (seats_total : ℤ) : ℤ :=
  if seats_total ≤ 0 then 1 else seats_total

/-- `compute_dynamic_fare` from flight_search_api_fastapi.py, with the random
volatility draw passed in explicitly.  The source computes
`mult = 1 + scarcity + urgency + demand`, `raw = base_fare * mult`,
`raw *= (1 + volatility)`, `floor = max(1.0, base_fare * 0.5)`,
`fare = max(floor, round(raw, 2))`. -/
def compute_dynamic_fare (base_fare : ℚ) (seats_total seats_available : ℤ)
    (time_until_departure_hours : ℚ) (demand_level : ℤ) (volatility : ℚ) : ℚ :=
  max (max 1 (base_fare * (1/2)))
    (round2 (base_fare *
      (1 + scarcity_component ((seats_available : ℚ) / ((guarded_seats_total seats_total : ℤ) : ℚ))
         + urgency_component time_until_departure_hours
         + demand_component demand_level)
      * (1 + volatility)))

/-- The fare formula exactly as claim C1 words it: breakpoints applied to
`seats_available / seats_total` directly (no guard), demand contribution
written `0.8 * demand_level / 100` (no clamp), volatility fixed at zero. -/
def claim_C1_fare (base_fare : ℚ) (seats_total seats_available : ℤ)
    (hours : ℚ) (demand_level : ℤ) : ℚ :=
  max (max 1 (base_fare * (1/2)))
    (round2 (base_fare *
      (1 + scarcity_component ((seats_available : ℚ) / ((seats_total : ℤ) : ℚ))
         + urgency_component hours
         + (4/5) * ((demand_level : ℚ) / 100))))

-- Helper lemmas about the engine components.

lemma guarded_seats_total_pos (seats_total : ℤ) : 0 < guarded_seats_total seats_total := by
  unfold guarded_seats_total
  split
  · norm_num
  · omega

lemma remaining_pct_guard_eq (seats_total seats_available : ℤ)
    (hst : 0 ≤ seats_total) (h0 : 0 ≤ seats_available) (h1 : seats_available ≤ seats_total) :
    ((seats_available : ℚ) / ((guarded_seats_total seats_total : ℤ) : ℚ))
      = (seats_available : ℚ) / ((seats_total : ℤ) : ℚ) := by
  unfold guarded_seats_total
  rcases lt_or_eq_of_le hst with hpos | hzero
  · rw [if_neg (not_le.mpr hpos)]
  · have hsa : seats_available = 0 := le_antisymm (hzero ▸ h1) h0
    subst hsa
    simp

lemma demand_component_eq (d : ℤ) (h0 : 0 ≤ d) (h1 : d ≤ 100) :
    demand_component d = (4/5) * ((d : ℚ) / 100) := by
  unfold demand_component
  have hc0 : (0 : ℚ) ≤ (d : ℚ) := by exact_mod_cast h0
  have hc1 : (d : ℚ) ≤ 100 := by exact_mod_cast h1
  have hle : (d : ℚ) / 100 ≤ 1 := by linarith
  have hge : (0 : ℚ) ≤ (d : ℚ) / 100 := by linarith
  rw [min_eq_right hle, max_eq_right hge]
  ring

/-- Claim C1: with the volatility perturbation fixed at 0 and valid inputs,
`compute_dynamic_fare` equals
`max (max 1 (base_fare/2)) (round2 (base_fare * (1 + scarcity + urgency + 0.8*demand/100)))`
with the documented breakpoints, and in particular
`compute_dynamic_fare 1000 100 2 1 50` with zero volatility is 3150. -/
theorem claim_C1 (base_fare : ℚ) (seats_total seats_available : ℤ)
    (hours : ℚ) (demand_level : ℤ)
    (hb : 0 < base_fare) (hst : 0 ≤ seats_total)
    (hsa0 : 0 ≤ seats_available) (hsa1 : seats_available ≤ seats_total)
    (hh : 1/10 ≤ hours) (hd0 : 0 ≤ demand_level) (hd1 : demand_level ≤ 100) :
    compute_dynamic_fare base_fare seats_total seats_available hours demand_level 0
      = claim_C1_fare base_fare seats_total seats_available hours demand_level
    ∧ compute_dynamic_fare 1000 100 2 1 50 0 = 3150 := by
  constructor
  · unfold compute_dynamic_fare claim_C1_fare
    rw [remaining_pct_guard_eq seats_total seats_available hst hsa0 hsa1,
      demand_component_eq demand_level hd0 hd1]
    congr 1
    congr 1
    ring
  · norm_num [compute_dynamic_fare, scarcity_component, urgency_component,
      demand_component, guarded_seats_total, round2]

/-- Instantiation of claim C1 at the concrete input of the claim. -/
theorem claim_C1_witness :
    compute_dynamic_fare 1000 100 2 1 50 0 = claim_C1_fare 1000 100 2 1 50
    ∧ compute_dynamic_fare 1000 100 2 1 50 0 = 3150 :=
  claim_C1 1000 100 2 1 50 (by norm_num) (by decide) (by decide) (by decide)
    (by norm_num) (by decide) (by decide)

/-- Claim C2: for every valid input and every value of the volatility draw in
[-0.02, 0.03], the returned fare is at least `max 1 (base_fare/2)`. -/
theorem claim_C2 (base_fare : ℚ) (seats_total seats_available : ℤ)
    (hours : ℚ) (demand_level : ℤ) (volatility : ℚ)
    (hb : 0 < base_fare) (hst : 0 ≤ seats_total)
    (hsa0 : 0 ≤ seats_available) (hsa1 : seats_available ≤ seats_total)
    (hh : 1/10 ≤ hours) (hd0 : 0 ≤ demand_level) (hd1 : demand_level ≤ 100)
    (hv0 : -1/50 ≤ volatility) (hv1 : volatility ≤ 3/100) :
    max 1 (base_fare * (1/2))
      ≤ compute_dynamic_fare base_fare seats_total seats_available hours demand_level volatility :=
  le_max_left _ _

/-- Instantiation of claim C2 at a concrete valid input. -/
theorem claim_C2_witness :
    max 1 ((1000 : ℚ) * (1/2)) ≤ compute_dynamic_fare 1000 100 2 1 50 (3/100) :=
  claim_C2 1000 100 2 1 50 (3/100) (by norm_num) (by decide) (by decide) (by decide)
    (by norm_num) (by decide) (by decide) (by norm_num) (by norm_num)

/-- Claim C8: for `seats_total ≤ 0` the engine behaves exactly as if
`seats_total` were 1, the guarded denominator is never zero, and the result
is always at least the floor (the function is total: it is a Lean `def`). -/
theorem claim_C8 (base_fare : ℚ) (seats_total seats_available : ℤ)
    (hours : ℚ) (demand_level : ℤ) (volatility : ℚ)
    (hst : seats_total ≤ 0) :
    compute_dynamic_fare base_fare seats_total seats_available hours demand_level volatility
      = compute_dynamic_fare base_fare 1 seats_available hours demand_level volatility
    ∧ guarded_seats_total seats_total ≠ 0
    ∧ max 1 (base_fare * (1/2))
        ≤ compute_dynamic_fare base_fare seats_total seats_available hours demand_level volatility := by
  refine ⟨?_, ?_, le_max_left _ _⟩
  · unfold compute_dynamic_fare guarded_seats_total
    rw [if_pos hst, if_neg (by norm_num : ¬ (1 : ℤ) ≤ 0)]
  · exact ne_of_gt (guarded_seats_total_pos seats_total)

/-- Instantiation of claim C8 at `seats_total = 0`. -/
theorem claim_C8_witness :
    compute_dynamic_fare 1000 0 5 1 50 0 = compute_dynamic_fare 1000 1 5 1 50 0
    ∧ guarded_seats_total 0 ≠ 0
    ∧ max 1 ((1000 : ℚ) * (1/2)) ≤ compute_dynamic_fare 1000 0 5 1 50 0 :=
  claim_C8 1000 0 5 1 50 0 (by decide)

-- Monotonicity helper lemmas for claim C3.

lemma scarcity_component_antitone {p q : ℚ} (h : p ≤ q) :
    scarcity_component q ≤ scarcity_component p := by
  unfold scarcity_component
  split_ifs <;> linarith

lemma urgency_component_antitone {p q : ℚ} (h : p ≤ q) :
    urgency_component q ≤ urgency_component p := by
  unfold urgency_component
  split_ifs <;> linarith

lemma demand_component_mono {d e : ℤ} (h : d ≤ e) :
    demand_component d ≤ demand_component e := by
  unfold demand_component
  have hc : (d : ℚ) / 100 ≤ (e : ℚ) / 100 := by
    have : (d : ℚ) ≤ (e : ℚ) := by exact_mod_cast h
    linarith
  have : max 0 (min 1 ((d : ℚ) / 100)) ≤ max 0 (min 1 ((e : ℚ) / 100)) :=
    max_le_max le_rfl (min_le_min le_rfl hc)
  nlinarith

lemma scarcity_component_nonneg (p : ℚ) : 0 ≤ scarcity_component p := by
  unfold scarcity_component
  split_ifs <;> norm_num

lemma urgency_component_nonneg (p : ℚ) : 0 ≤ urgency_component p := by
  unfold urgency_component
  split_ifs <;> norm_num

lemma demand_component_nonneg (d : ℤ) : 0 ≤ demand_component d := by
  unfold demand_component
  have : (0 : ℚ) ≤ max 0 (min 1 ((d : ℚ) / 100)) := le_max_left _ _
  nlinarith

lemma round2_mono {x y : ℚ} (h : x ≤ y) : round2 x ≤ round2 y := by
  unfold round2
  have hi : round (100 * x) ≤ round (100 * y) := by
    rw [round_eq, round_eq]
    exact Int.floor_le_floor (by linarith)
  have hc : ((round (100 * x) : ℤ) : ℚ) ≤ ((round (100 * y) : ℤ) : ℚ) := by exact_mod_cast hi
  linarith

/-- Core monotonicity in the multiplier: with a positive base fare and the
volatility bounded below by -2 percent, a larger multiplier gives a larger fare. -/
lemma fare_mono_of_mult_le (base_fare : ℚ) (hb : 0 < base_fare)
    (volatility : ℚ) (hv : -1/50 ≤ volatility) {m₁ m₂ : ℚ} (hm : m₁ ≤ m₂) :
    max (max 1 (base_fare * (1/2))) (round2 (base_fare * m₁ * (1 + volatility)))
      ≤ max (max 1 (base_fare * (1/2))) (round2 (base_fare * m₂ * (1 + volatility))) := by
  refine max_le_max le_rfl (round2_mono ?_)
  have h1v : (0 : ℚ) ≤ 1 + volatility := by linarith
  have : base_fare * m₁ ≤ base_fare * m₂ := mul_le_mul_of_nonneg_left hm hb.le
  exact mul_le_mul_of_nonneg_right this h1v

/-- Claim C3: with the volatility draw and all other arguments held fixed,
the fare is antitone in seats_available, antitone in hours to departure, and
monotone in demand level. -/
theorem claim_C3 (base_fare : ℚ) (seats_total sa sa' : ℤ) (h h' : ℚ) (d d' : ℤ)
    (volatility : ℚ) (hb : 0 < base_fare)
    (hv0 : -1/50 ≤ volatility) (hv1 : volatility ≤ 3/100) :
    (0 ≤ sa' → sa' ≤ sa → sa ≤ seats_total →
      compute_dynamic_fare base_fare seats_total sa h d volatility
        ≤ compute_dynamic_fare base_fare seats_total sa' h d volatility)
    ∧ (h' ≤ h →
      compute_dynamic_fare base_fare seats_total sa h d volatility
        ≤ compute_dynamic_fare base_fare seats_total sa h' d volatility)
    ∧ (d ≤ d' →
      compute_dynamic_fare base_fare seats_total sa h d volatility
        ≤ compute_dynamic_fare base_fare seats_total sa h d' volatility) := by
  refine ⟨?_, ?_, ?_⟩
  · intro _ hle _
    unfold compute_dynamic_fare
    refine fare_mono_of_mult_le base_fare hb volatility hv0 ?_
    have hgpos : (0 : ℚ) < ((guarded_seats_total seats_total : ℤ) : ℚ) := by
      exact_mod_cast guarded_seats_total_pos seats_total
    have hcast : (sa' : ℚ) ≤ (sa : ℚ) := by exact_mod_cast hle
    have hdiv : (sa' : ℚ) / ((guarded_seats_total seats_total : ℤ) : ℚ)
        ≤ (sa : ℚ) / ((guarded_seats_total seats_total : ℤ) : ℚ) :=
      (div_le_div_iff_of_pos_right hgpos).mpr hcast
    have := scarcity_component_antitone hdiv
    linarith
  · intro hle
    unfold compute_dynamic_fare
    refine fare_mono_of_mult_le base_fare hb volatility hv0 ?_
    have := urgency_component_antitone hle
    linarith
  · intro hle
    unfold compute_dynamic_fare
    refine fare_mono_of_mult_le base_fare hb volatility hv0 ?_
    have := demand_component_mono hle
    linarith

/-- Instantiation of claim C3 at concrete inputs. -/
theorem claim_C3_witness :
    ((0 : ℤ) ≤ 2 → (2 : ℤ) ≤ 40 → (40 : ℤ) ≤ 100 →
      compute_dynamic_fare 1000 100 40 20 50 0 ≤ compute_dynamic_fare 1000 100 2 20 50 0)
    ∧ ((1 : ℚ) ≤ 20 →
      compute_dynamic_fare 1000 100 40 20 50 0 ≤ compute_dynamic_fare 1000 100 40 1 50 0)
    ∧ ((50 : ℤ) ≤ 90 →
      compute_dynamic_fare 1000 100 40 20 50 0 ≤ compute_dynamic_fare 1000 100 40 20 90 0) :=
  claim_C3 1000 100 40 2 20 1 50 90 0 (by norm_num) (by norm_num) (by norm_num)

/-!
Background demand simulator (`background_worker` in flight_search_api_fastapi.py).
-/

/-- A row of the Flight table, restricted to the fields the background worker
touches.  `demand_level` is an `Option`: `none` models a malformed row (for
example a NULL demand) whose arithmetic `f.demand_level + delta` raises a
TypeError — the failure-injection scenario described by the spec.
`departure` is a timestamp measured in hours. -/
structure SimFlight where
  seats_total : ℤ
  seats_available : ℤ
  demand_level : Option ℤ
  base_fare : ℚ
  departure : ℚ
  current_fare : ℚ
deriving DecidableEq

/-- The random draws consumed for one flight in one worker iteration: the
demand walk step `random.randint(-5, 8)`, the seat change drawn from
`[0, -1, -2, 1]`, and the volatility draw inside `compute_dynamic_fare`. -/
structure SimStep where
  delta : ℤ
  change : ℤ
  vol : ℚ
deriving DecidableEq

/-- The per-flight body of the `for f in flights` loop of `background_worker`:
clamp the demand walk into [0, 100], clamp the seat change into
[0, seats_total], then recompute the fare at `max(0.1, hours)` from the new
demand and seats.  A malformed row raises, modelled by `Except.error`. -/
def updateFlight (now : ℚ) (s : SimStep) (f : SimFlight) : Except String SimFlight :=
  match f.demand_level with
  | none => Except.error "TypeError: unsupported operand type"
  | some d =>
    let d' := max 0 (min 100 (d + s.delta))
    let sa' := max 0 (min f.seats_total (f.seats_available + s.change))
    let hours := f.departure - now
    Except.ok { f with
      demand_level := some d'
      seats_available := sa'
      current_fare := compute_dynamic_fare f.base_fare f.seats_total sa'
        (max (1/10) hours) d' s.vol }

/-- One worker iteration over the flight list; the index i tracks the position
so each flight consumes its own draws σ i.  The try block of the source wraps
the whole loop, so the first exception aborts the entire iteration.  Returns
the updated flights together with the FareHistory fares added when `enable`
(ENABLE_FARE_HISTORY) is true. -/
def runIteration (enable : Bool) (now : ℚ) (σ : ℕ → SimStep) :
    ℕ → List SimFlight → Except String (List SimFlight × List ℚ)
  | _, [] => Except.ok ([], [])
  | i, f :: fs =>
    match updateFlight now (σ i) f with
    | Except.error e => Except.error e
    | Except.ok f' =>
      match runIteration enable now σ (i + 1) fs with
      | Except.error e => Except.error e
      | Except.ok (fs', rows) =>
        Except.ok (f' :: fs', (if enable then [f'.current_fare] else []) ++ rows)

/-- One turn of the `while` loop of `background_worker`: the iteration runs
inside try/except; on an exception the session is dropped without commit, so
the persisted state (flights and history) is unchanged, the exception is
logged, and the loop moves on.  The state is (flight rows, FareHistory fares). -/
def workerStep (enable : Bool) (now : ℚ) (σ : ℕ → SimStep)
    (st : List SimFlight × List ℚ) : List SimFlight × List ℚ :=
  match runIteration enable now σ 0 st.1 with
  | Except.ok (fs, rows) => (fs, st.2 ++ rows)
  | Except.error _ => st

/-- Repeated worker iterations; each has its own wall-clock time and draws. -/
def runWorker (enable : Bool) (iters : List (ℚ × (ℕ → SimStep)))
    (st : List SimFlight × List ℚ) : List SimFlight × List ℚ :=
  iters.foldl (fun acc p => workerStep enable p.1 p.2 acc) st

/-- The demand column holds an integer in [0, 100] (malformed rows excluded). -/
def demandOk : Option ℤ → Prop
  | none => False
  | some d => 0 ≤ d ∧ d ≤ 100

instance : DecidablePred demandOk := fun o =>
  match o with
  | none => isFalse fun h => h
  | some d => inferInstanceAs (Decidable (0 ≤ d ∧ d ≤ 100))

/-- The state invariant of claim C4 for one flight row. -/
def FlightInv (f : SimFlight) : Prop :=
  0 ≤ f.seats_available ∧ f.seats_available ≤ f.seats_total ∧ demandOk f.demand_level

instance : DecidablePred FlightInv := fun f =>
  inferInstanceAs (Decidable (0 ≤ f.seats_available ∧ f.seats_available ≤ f.seats_total
    ∧ demandOk f.demand_level))

lemma updateFlight_inv {now : ℚ} {s : SimStep} {f f' : SimFlight}
    (hf : FlightInv f) (h : updateFlight now s f = Except.ok f') : FlightInv f' := by
  obtain ⟨h0, h1, _⟩ := hf
  unfold updateFlight at h
  cases hdem : f.demand_level with
  | none => rw [hdem] at h; cases h
  | some d =>
    rw [hdem] at h
    injection h with h
    subst h
    refine ⟨?_, ?_, ?_⟩
    · show (0 : ℤ) ≤ max 0 (min f.seats_total (f.seats_available + s.change))
      omega
    · show max 0 (min f.seats_total (f.seats_available + s.change)) ≤ f.seats_total
      omega
    · show (0 : ℤ) ≤ max 0 (min 100 (d + s.delta)) ∧ max 0 (min 100 (d + s.delta)) ≤ 100
      omega

lemma runIteration_inv {enable : Bool} {now : ℚ} {σ : ℕ → SimStep} :
    ∀ (i : ℕ) (fs fs' : List SimFlight) (rows : List ℚ),
      (∀ f ∈ fs, FlightInv f) →
      runIteration enable now σ i fs = Except.ok (fs', rows) →
      ∀ f ∈ fs', FlightInv f := by
  intro i fs
  induction fs generalizing i with
  | nil =>
    intro fs' rows _ h
    unfold runIteration at h
    cases h
    intro f hf
    cases hf
  | cons g gs ih =>
    intro fs' rows hinv h
    unfold runIteration at h
    cases hup : updateFlight now (σ i) g with
    | error e => rw [hup] at h; cases h
    | ok g' =>
      rw [hup] at h
      cases hrec : runIteration enable now σ (i + 1) gs with
      | error e => rw [hrec] at h; cases h
      | ok p =>
        rw [hrec] at h
        obtain ⟨gs', rows'⟩ := p
        cases h
        intro f hf
        rcases List.mem_cons.mp hf with rfl | hmem
        · exact updateFlight_inv (hinv g (List.mem_cons_self g gs)) hup
        · exact ih (i + 1) gs' rows' (fun x hx => hinv x (List.mem_cons_of_mem g hx)) hrec f hmem

lemma workerStep_inv {enable : Bool} {now : ℚ} {σ : ℕ → SimStep}
    {st : List SimFlight × List ℚ} (hinv : ∀ f ∈ st.1, FlightInv f) :
    ∀ f ∈ (workerStep enable now σ st).1, FlightInv f := by
  unfold workerStep
  cases hrun : runIteration enable now σ 0 st.1 with
  | error e => exact hinv
  | ok p =>
    obtain ⟨fs, rows⟩ := p
    exact runIteration_inv 0 st.1 fs rows hinv hrun

lemma runWorker_inv {enable : Bool} :
    ∀ (iters : List (ℚ × (ℕ → SimStep))) (st : List SimFlight × List ℚ),
      (∀ f ∈ st.1, FlightInv f) → ∀ f ∈ (runWorker enable iters st).1, FlightInv f := by
  intro iters
  induction iters with
  | nil => intro st h; exact h
  | cons p ps ih =>
    intro st h
    exact ih (workerStep enable p.1 p.2 st) (workerStep_inv h)

/-- Claim C4: from any state whose flights satisfy
0 ≤ seats_available ≤ seats_total and 0 ≤ demand_level ≤ 100, any number of
simulator iterations with demand steps in [-5, 8] and seat changes drawn from
{0, -1, -2, 1} leaves every flight satisfying the same bounds. -/
theorem claim_C4 (enable : Bool) (iters : List (ℚ × (ℕ → SimStep)))
    (st : List SimFlight × List ℚ)
    (hsteps : ∀ p ∈ iters, ∀ i : ℕ,
      -5 ≤ (p.2 i).delta ∧ (p.2 i).delta ≤ 8 ∧ (p.2 i).change ∈ ([0, -1, -2, 1] : List ℤ))
    (hinv : ∀ f ∈ st.1, FlightInv f) :
    ∀ f ∈ (runWorker enable iters st).1, FlightInv f :=
  runWorker_inv iters st hinv

/-- A healthy flight row used in the concrete instantiations below. -/
def goodFlight : SimFlight :=
  { seats_total := 100, seats_available := 50, demand_level := some 40
    base_fare := 1000, departure := 24, current_fare := 2000 }

/-- A malformed flight row (NULL demand): its update raises. -/
def badFlight : SimFlight :=
  { seats_total := 100, seats_available := 50, demand_level := none
    base_fare := 1000, departure := 24, current_fare := 2000 }

/-- Instantiation of claim C4 at a concrete state and one concrete iteration. -/
theorem claim_C4_witness :
    ((runWorker true [(0, fun _ => SimStep.mk 3 (-1) 0)] ([goodFlight], [])).1.all
      (fun f => decide (FlightInv f))) = true := by
  have H :=
    claim_C4 true [(0, fun _ => SimStep.mk 3 (-1) 0)] ([goodFlight], [])
      (by
        intro p hp i
        rcases List.mem_singleton.mp hp with rfl
        show (-5 ≤ (3 : ℤ)) ∧ ((3 : ℤ) ≤ 8) ∧ ((-1 : ℤ) ∈ ([0, -1, -2, 1] : List ℤ))
        decide)
      (by
        intro f hf
        rcases List.mem_singleton.mp hf with rfl
        decide)
  exact List.all_eq_true.mpr fun f hf => decide_eq_true (H f hf)

/-- Counterexample to claim C5 as stated: in an iteration where the first
flight raises, the second (healthy) flight is NOT updated — the try/except of
`background_worker` wraps the whole loop, so the iteration aborts before the
commit and the state is unchanged — even though the update of the healthy
flight alone would have revised its demand to 43 and its seats to 49. -/
theorem claim_C5_counterexample :
    workerStep true 0 (fun _ => SimStep.mk 3 (-1) 0) ([badFlight, goodFlight], [])
      = ([badFlight, goodFlight], [])
    ∧ Except.map (fun g => (g.demand_level, g.seats_available))
        (updateFlight 0 (SimStep.mk 3 (-1) 0) goodFlight)
      = Except.ok (some 43, 49)
    ∧ goodFlight.demand_level = some 40 ∧ goodFlight.seats_available = 50 :=
  ⟨rfl, rfl, rfl, rfl⟩

/-- Claim C5 amended: when one flight of an iteration raises, the exception is
caught, the loop does continue with the following iterations, but the failing
iteration commits nothing: every flight of that iteration — including the
healthy ones — keeps its previous state. -/
theorem claim_C5_amended (enable : Bool) (now : ℚ) (σ : ℕ → SimStep)
    (st : List SimFlight × List ℚ) (iters : List (ℚ × (ℕ → SimStep)))
    (hfail : (runIteration enable now σ 0 st.1).toOption = none) :
    workerStep enable now σ st = st
    ∧ runWorker enable ((now, σ) :: iters) st = runWorker enable iters st := by
  have hstep : workerStep enable now σ st = st := by
    unfold workerStep
    cases hrun : runIteration enable now σ 0 st.1 with
    | error e => rfl
    | ok p =>
      rw [hrun] at hfail
      simp [Except.toOption] at hfail
  refine ⟨hstep, ?_⟩
  show runWorker enable iters (workerStep enable now σ st) = runWorker enable iters st
  rw [hstep]

/-- Instantiation of claim C5 (amended) at the concrete failing state. -/
theorem claim_C5_amended_witness :
    workerStep true 0 (fun _ => SimStep.mk 3 (-1) 0) ([badFlight, goodFlight], [])
      = ([badFlight, goodFlight], [])
    ∧ runWorker true [(0, fun _ => SimStep.mk 3 (-1) 0)] ([badFlight, goodFlight], [])
      = runWorker true [] ([badFlight, goodFlight], []) :=
  claim_C5_amended true 0 (fun _ => SimStep.mk 3 (-1) 0) ([badFlight, goodFlight], []) []
    (by rfl)

lemma updateFlight_isOk {now : ℚ} {s : SimStep} {g : SimFlight} {d : ℤ}
    (hdem : g.demand_level = some d) :
    ∃ g', updateFlight now s g = Except.ok g' := by
  unfold updateFlight
  rw [hdem]
  exact ⟨_, rfl⟩

lemma runIteration_ok {enable : Bool} {now : ℚ} {σ : ℕ → SimStep} :
    ∀ (i : ℕ) (fs : List SimFlight), (∀ f ∈ fs, f.demand_level ≠ none) →
      ∃ fs' rows, runIteration enable now σ i fs = Except.ok (fs', rows)
        ∧ rows.length = if enable then fs.length else 0 := by
  intro i fs
  induction fs generalizing i with
  | nil =>
    intro _
    exact ⟨[], [], rfl, by cases enable <;> rfl⟩
  | cons g gs ih =>
    intro hwf
    obtain ⟨fs', rows, hrec, hlen⟩ :=
      ih (i + 1) (fun f hf => hwf f (List.mem_cons_of_mem g hf))
    cases hdem : g.demand_level with
    | none => exact absurd hdem (hwf g (List.mem_cons_self g gs))
    | some d =>
      obtain ⟨g', hg⟩ := @updateFlight_isOk now (σ i) g d hdem
      refine ⟨g' :: fs', (if enable then [g'.current_fare] else []) ++ rows, ?_, ?_⟩
      · unfold runIteration
        rw [hg, hrec]
      · cases enable <;> simp [hlen]

/-- Claim C6: one simulator iteration over n healthy flights appends exactly
n FareHistory fares when ENABLE_FARE_HISTORY is true and none when it is
false; and the worker only ever appends to the history — the previous rows
stay untouched as an unmodified initial segment. -/
theorem claim_C6 (now : ℚ) (σ : ℕ → SimStep) (fs : List SimFlight) (hist : List ℚ)
    (hwf : ∀ f ∈ fs, f.demand_level ≠ none) :
    (∃ fs' rows, runIteration true now σ 0 fs = Except.ok (fs', rows)
      ∧ rows.length = fs.length)
    ∧ (∃ fs' rows, runIteration false now σ 0 fs = Except.ok (fs', rows) ∧ rows = [])
    ∧ (∀ enable : Bool, ∃ newRows,
        (workerStep enable now σ (fs, hist)).2 = hist ++ newRows) := by
  refine ⟨?_, ?_, ?_⟩
  · obtain ⟨fs', rows, hrun, hlen⟩ := @runIteration_ok true now σ 0 fs hwf
    exact ⟨fs', rows, hrun, by simpa using hlen⟩
  · obtain ⟨fs', rows, hrun, hlen⟩ := @runIteration_ok false now σ 0 fs hwf
    refine ⟨fs', rows, hrun, ?_⟩
    simpa [List.length_eq_zero] using hlen
  · intro enable
    unfold workerStep
    cases hrun : runIteration enable now σ 0 fs with
    | error e => exact ⟨[], by simp⟩
    | ok p =>
      obtain ⟨fs', rows⟩ := p
      exact ⟨rows, rfl⟩

/-- Instantiation of claim C6 at a concrete two-flight state. -/
theorem claim_C6_witness :
    (∃ fs' rows, runIteration true 0 (fun _ => SimStep.mk 3 (-1) 0) 0 [goodFlight, goodFlight]
      = Except.ok (fs', rows) ∧ rows.length = [goodFlight, goodFlight].length)
    ∧ (∃ fs' rows, runIteration false 0 (fun _ => SimStep.mk 3 (-1) 0) 0 [goodFlight, goodFlight]
      = Except.ok (fs', rows) ∧ rows = [])
    ∧ (∀ enable : Bool, ∃ newRows,
        (workerStep enable 0 (fun _ => SimStep.mk 3 (-1) 0) ([goodFlight, goodFlight], [7])).2
          = [7] ++ newRows) :=
  claim_C6 0 (fun _ => SimStep.mk 3 (-1) 0) [goodFlight, goodFlight] [7] (by decide)

/-!
Search endpoint (`search_flights` in flight_search_api_fastapi.py).
-/

/-- A Flight row with the fields the search endpoint reads.  `departure` is a
timestamp measured in hours; demand here is a plain integer, since claim C7 is
about well-formed rows. -/
structure SFlight where
  origin : String
  destination : String
  departure : ℚ
  duration_mins : ℤ
  seats_total : ℤ
  seats_available : ℤ
  base_fare : ℚ
  current_fare : ℚ
  demand_level : ℤ
deriving DecidableEq

/-- The sort_by query parameter. -/
inductive SortBy
  | price
  | duration
deriving DecidableEq

/-- The order query parameter. -/
inductive SortOrder
  | asc
  | desc
deriving DecidableEq

/-- The WHERE clauses of the search statement: optional origin equality (the
query string uppercased), optional destination equality, optional departure
window [start of day, start of day + 24h). -/
def matchesQuery (origin destination : Option String) (dateStart : Option ℚ)
    (f : SFlight) : Bool :=
  (match origin with
    | none => true
    | some o => f.origin == o.toUpper)
  && (match destination with
    | none => true
    | some dst => f.destination == dst.toUpper)
  && (match dateStart with
    | none => true
    | some d0 => decide (d0 ≤ f.departure) && decide (f.departure < d0 + 24))

/-- The per-result recompute of the search endpoint: overwrite current_fare
with a fresh Fare Engine call on the stored fields and the current time. -/
def recomputeFare (now v : ℚ) (f : SFlight) : SFlight :=
  { f with
    current_fare := compute_dynamic_fare f.base_fare f.seats_total f.seats_available
      (max (1/10) (f.departure - now)) f.demand_level v }

/-- The `for f in results` recompute loop; each result consumes its own
volatility draw, indexed by its position. -/
def recomputeAll (now : ℚ) (vol : ℕ → ℚ) : ℕ → List SFlight → List SFlight
  | _, [] => []
  | i, f :: fs => recomputeFare now (vol i) f :: recomputeAll now vol (i + 1) fs

/-- The sorting key: freshly computed fare for price, stored duration else. -/
def sortKey (sb : SortBy) (f : SFlight) : ℚ :=
  match sb with
  | SortBy.price => f.current_fare
  | SortBy.duration => (f.duration_mins : ℚ)

/-- The comparison used by the final sort, reversed for descending order. -/
def sortLe (sb : SortBy) (ord : SortOrder) (a b : SFlight) : Bool :=
  match ord with
  | SortOrder.asc => decide (sortKey sb a ≤ sortKey sb b)
  | SortOrder.desc => decide (sortKey sb b ≤ sortKey sb a)

/-- The `/search` endpoint body: filter by the optional criteria, recompute
each fare (appending one history fare per match when enabled), sort by the
chosen key and order, and cut to `limit` only after sorting.  Returns the
response list together with the appended FareHistory fares. -/
def search_flights (flights : List SFlight) (now : ℚ)
    (origin destination : Option String) (dateStart : Option ℚ)
    (sb : SortBy) (ord : SortOrder) (limit : ℕ) (enable : Bool) (vol : ℕ → ℚ) :
    List SFlight × List ℚ :=
  let results := flights.filter (matchesQuery origin destination dateStart)
  let adjusted := recomputeAll now vol 0 results
  let history := if enable then adjusted.map (fun f => f.current_fare) else []
  let sorted := adjusted.mergeSort (sortLe sb ord)
  (sorted.take limit, history)

lemma recomputeAll_length {now : ℚ} {vol : ℕ → ℚ} :
    ∀ (i : ℕ) (fs : List SFlight), (recomputeAll now vol i fs).length = fs.length := by
  intro i fs
  induction fs generalizing i with
  | nil => rfl
  | cons a as ih => simpa [recomputeAll] using ih (i + 1)

lemma mem_recomputeAll {now : ℚ} {vol : ℕ → ℚ} :
    ∀ (i : ℕ) (fs : List SFlight) (g : SFlight), g ∈ recomputeAll now vol i fs →
      ∃ j f, f ∈ fs ∧ g = recomputeFare now (vol j) f := by
  intro i fs
  induction fs generalizing i with
  | nil => intro g hg; cases hg
  | cons a as ih =>
    intro g hg
    rcases List.mem_cons.mp hg with rfl | hmem
    · exact ⟨i, a, List.mem_cons_self a as, rfl⟩
    · obtain ⟨j, f, hf, hgf⟩ := ih (i + 1) g hmem
      exact ⟨j, f, List.mem_cons_of_mem a hf, hgf⟩

lemma sortLe_trans (sb : SortBy) (ord : SortOrder) :
    ∀ a b c, sortLe sb ord a b → sortLe sb ord b c → sortLe sb ord a c := by
  intro a b c hab hbc
  cases ord <;> simp only [sortLe, decide_eq_true_eq] at hab hbc ⊢
  · exact le_trans hab hbc
  · exact le_trans hbc hab

lemma sortLe_total (sb : SortBy) (ord : SortOrder) :
    ∀ a b, sortLe sb ord a b || sortLe sb ord b a := by
  intro a b
  cases ord <;> simp only [sortLe, Bool.or_eq_true, decide_eq_true_eq]
  · exact le_total _ _
  · exact le_total _ _

lemma recomputeFare_setFare (now v c : ℚ) (f : SFlight) :
    recomputeFare now v { f with current_fare := c } = recomputeFare now v f := rfl

lemma recomputeAll_map_setFare {now : ℚ} {vol : ℕ → ℚ} (g : SFlight → ℚ) :
    ∀ (i : ℕ) (fs : List SFlight),
      recomputeAll now vol i (fs.map fun f => { f with current_fare := g f })
        = recomputeAll now vol i fs := by
  intro i fs
  induction fs generalizing i with
  | nil => rfl
  | cons a as ih =>
    rw [List.map_cons]
    show recomputeFare now (vol i) { a with current_fare := g a }
        :: recomputeAll now vol (i + 1) (as.map fun f => { f with current_fare := g f })
      = recomputeFare now (vol i) a :: recomputeAll now vol (i + 1) as
    rw [recomputeFare_setFare, ih (i + 1)]

lemma filter_matches_map_setFare (o d : Option String) (ds : Option ℚ) (g : SFlight → ℚ) :
    ∀ fs : List SFlight,
      (fs.map fun f => { f with current_fare := g f }).filter (matchesQuery o d ds)
        = (fs.filter (matchesQuery o d ds)).map fun f => { f with current_fare := g f } := by
  intro fs
  induction fs with
  | nil => rfl
  | cons a as ih =>
    rw [List.map_cons, List.filter_cons, List.filter_cons,
      show matchesQuery o d ds { a with current_fare := g a } = matchesQuery o d ds a from rfl]
    by_cases h : matchesQuery o d ds a
    · simp [h, ih]
    · simp [h, ih]

lemma search_flights_eq (flights : List SFlight) (now : ℚ)
    (o d : Option String) (ds : Option ℚ) (sb : SortBy) (ord : SortOrder)
    (limit : ℕ) (enable : Bool) (vol : ℕ → ℚ) :
    search_flights flights now o d ds sb ord limit enable vol
      = (((recomputeAll now vol 0 (flights.filter (matchesQuery o d ds))).mergeSort
            (sortLe sb ord)).take limit,
         if enable
           then (recomputeAll now vol 0 (flights.filter (matchesQuery o d ds))).map
             (fun f => f.current_fare)
           else []) := rfl

/-- Claim C7: for every search request (i) every returned flight carries a
freshly computed fare — a Fare Engine call on its own stored fields and the
current time; (ii) with history enabled exactly one history fare is appended
per matching flight, none with it disabled; (iii) the returned list is the
initial segment of a sorted permutation of the recomputed matches, ordered by
the chosen key and direction, so the limit applies only after sorting and the
response length is at most limit; (iv) the stored current_fare of the inputs
is never read: the whole response is invariant under arbitrary changes to it. -/
theorem claim_C7 (flights : List SFlight) (now : ℚ)
    (o d : Option String) (ds : Option ℚ) (sb : SortBy) (ord : SortOrder)
    (limit : ℕ) (enable : Bool) (vol : ℕ → ℚ) :
    (∀ g ∈ (search_flights flights now o d ds sb ord limit enable vol).1, ∃ v,
      g.current_fare = compute_dynamic_fare g.base_fare g.seats_total g.seats_available
        (max (1/10) (g.departure - now)) g.demand_level v)
    ∧ (search_flights flights now o d ds sb ord limit true vol).2.length
        = (flights.filter (matchesQuery o d ds)).length
    ∧ (search_flights flights now o d ds sb ord limit false vol).2 = []
    ∧ (∃ full : List SFlight,
        full.Perm (recomputeAll now vol 0 (flights.filter (matchesQuery o d ds)))
        ∧ List.Pairwise (fun a b => sortLe sb ord a b = true) full
        ∧ (search_flights flights now o d ds sb ord limit enable vol).1 = full.take limit)
    ∧ (search_flights flights now o d ds sb ord limit enable vol).1.length ≤ limit
    ∧ (∀ w : SFlight → ℚ,
        search_flights (flights.map fun f => { f with current_fare := w f })
            now o d ds sb ord limit enable vol
          = search_flights flights now o d ds sb ord limit enable vol) := by
  refine ⟨?_, ?_, ?_, ?_, ?_, ?_⟩
  · intro g hg
    rw [search_flights_eq] at hg
    have hms : g ∈ (recomputeAll now vol 0
        (flights.filter (matchesQuery o d ds))).mergeSort (sortLe sb ord) :=
      List.take_subset _ _ hg
    rw [List.mem_mergeSort] at hms
    obtain ⟨j, f, _, rfl⟩ := mem_recomputeAll 0 _ g hms
    exact ⟨vol j, rfl⟩
  · rw [search_flights_eq]
    simp [recomputeAll_length]
  · rw [search_flights_eq]
    rfl
  · refine ⟨(recomputeAll now vol 0 (flights.filter (matchesQuery o d ds))).mergeSort
      (sortLe sb ord), List.mergeSort_perm _ _, ?_, ?_⟩
    · exact List.sorted_mergeSort (sortLe_trans sb ord) (sortLe_total sb ord) _
    · rw [search_flights_eq]
  · rw [search_flights_eq]
    simp only [List.length_take]
    exact min_le_left _ _
  · intro w
    rw [search_flights_eq, search_flights_eq, filter_matches_map_setFare,
      recomputeAll_map_setFare]

/-!
Booking service (app.py with models.py): book and cancel against fixed seat
inventory.  One flight is modelled together with its bookings; bookings of
other flights do not interact with it.
-/

/-- Booking status strings. -/
inductive BStatus
  | CONFIRMED
  | CANCELLED
deriving DecidableEq

/-- A Booking row (models.py) restricted to the fields the claims read.
PNRs are modelled as the naturals handed out by a fresh-PNR counter. -/
structure Booking where
  pnr : ℕ
  seats_booked : ℤ
  status : BStatus
deriving DecidableEq

/-- One Flight row of the booking service (models.py) together with its
bookings; `nextPnr` stands for the unique-PNR generator.  A fresh flight has
available_seats = total_seats (the Flight constructor sets both to seats). -/
structure BookingState where
  total_seats : ℤ
  available_seats : ℤ
  bookings : List Booking
  nextPnr : ℕ
deriving DecidableEq

/-- Responses of the book endpoint. -/
inductive BookResult
  | notEnough
  | success (pnr : ℕ)
deriving DecidableEq

/-- Responses of the cancel endpoint. -/
inductive CancelResult
  | invalidPnr
  | alreadyCancelled
  | cancelled
deriving DecidableEq

/-- `/api/book` (app.py): reject when `available_seats < seats`; otherwise
decrement available_seats by seats and append a CONFIRMED booking. -/
def book_flight (seats : ℤ) (st : BookingState) : BookingState × BookResult :=
  if st.available_seats < seats then (st, BookResult.notEnough)
  else
    ({ st with
        available_seats := st.available_seats - seats
        bookings := st.bookings ++ [Booking.mk st.nextPnr seats BStatus.CONFIRMED]
        nextPnr := st.nextPnr + 1 },
      BookResult.success st.nextPnr)

/-- Set the status of the first booking with the given pnr to CANCELLED,
the effect of mutating the row returned by `filter_by(pnr=pnr).first()`. -/
def cancelFirst (pnr : ℕ) : List Booking → List Booking
  | [] => []
  | b :: bs =>
    if b.pnr = pnr then { b with status := BStatus.CANCELLED } :: bs
    else b :: cancelFirst pnr bs

/-- `/api/cancel/<pnr>` (app.py): unknown PNR is rejected; a booking already
CANCELLED answers Already cancelled and nothing changes; otherwise the booking
is cancelled and its booked seats are added back to available_seats. -/
def cancel_booking (pnr : ℕ) (st : BookingState) : BookingState × CancelResult :=
  match st.bookings.find? (fun b => b.pnr == pnr) with
  | none => (st, CancelResult.invalidPnr)
  | some b =>
    if b.status = BStatus.CANCELLED then (st, CancelResult.alreadyCancelled)
    else
      ({ st with
          available_seats := st.available_seats + b.seats_booked
          bookings := cancelFirst pnr st.bookings },
        CancelResult.cancelled)

/-- A booking-API call against the flight. -/
inductive BookOp
  | book (seats : ℤ)
  | cancel (pnr : ℕ)
deriving DecidableEq

/-- Run a sequence of API calls, keeping the state. -/
def runOps : List BookOp → BookingState → BookingState
  | [], st => st
  | BookOp.book s :: ops, st => runOps ops (book_flight s st).1
  | BookOp.cancel p :: ops, st => runOps ops (cancel_booking p st).1

/-- A fresh flight as the seeder creates it: available = total, no bookings. -/
def initState (seats : ℤ) : BookingState :=
  { total_seats := seats, available_seats := seats, bookings := [], nextPnr := 0 }

/-- Sum of seats_booked over the CONFIRMED bookings. -/
def confirmedSeats (bs : List Booking) : ℤ :=
  ((bs.filter (fun b => b.status == BStatus.CONFIRMED)).map
    (fun b => b.seats_booked)).sum

/-- Claim C9 fails on the code: `book_flight` never validates that the
requested seat count is at least 1, and the spec invariant
"sum of seats_booked over CONFIRMED bookings ≤ total_seats" breaks.  On a
fresh 100-seat flight: booking -5 seats passes the guard (100 < -5 is false)
and pushes available_seats to 105; booking 105 seats then succeeds; cancelling
the -5 booking drops available_seats to -5, leaving 105 CONFIRMED seats on a
100-seat flight. -/
theorem claim_C9 :
    confirmedSeats (runOps [BookOp.book (-5), BookOp.book 105, BookOp.cancel 0]
      (initState 100)).bookings = 105
    ∧ (runOps [BookOp.book (-5), BookOp.book 105, BookOp.cancel 0]
        (initState 100)).total_seats = 100
    ∧ (runOps [BookOp.book (-5), BookOp.book 105, BookOp.cancel 0]
        (initState 100)).available_seats = -5
    ∧ ¬ (confirmedSeats (runOps [BookOp.book (-5), BookOp.book 105, BookOp.cancel 0]
          (initState 100)).bookings
        ≤ (runOps [BookOp.book (-5), BookOp.book 105, BookOp.cancel 0]
            (initState 100)).total_seats) := by
  decide

/-- Claim C10: cancelling an already CANCELLED booking answers Already
cancelled and leaves the whole state unchanged — no status flip, no
seats_booked change, no second increment of available_seats. -/
theorem claim_C10 (st : BookingState) (pnr : ℕ) (b : Booking)
    (hfind : st.bookings.find? (fun x => x.pnr == pnr) = some b)
    (hst : b.status = BStatus.CANCELLED) :
    cancel_booking pnr st = (st, CancelResult.alreadyCancelled) := by
  unfold cancel_booking
  rw [hfind]
  simp [hst]

/-- Instantiation of claim C10 at a concrete cancelled booking. -/
theorem claim_C10_witness :
    cancel_booking 0 (BookingState.mk 100 100 [Booking.mk 0 5 BStatus.CANCELLED] 1)
      = (BookingState.mk 100 100 [Booking.mk 0 5 BStatus.CANCELLED] 1,
         CancelResult.alreadyCancelled) :=
  claim_C10 (BookingState.mk 100 100 [Booking.mk 0 5 BStatus.CANCELLED] 1) 0
    (Booking.mk 0 5 BStatus.CANCELLED) (by decide) (by decide)
